import Mathlib

/-!
Verification of the Cooperative Tick Task Scheduler
(`src/utilsLib/TickScheduler.js`, class `TaskScheduler`).

The JavaScript class is shallowly embedded as pure Lean functions over an
explicit task state.  The user callback is opaque; its only observable
behaviours are (a) whether a given invocation throws and (b) that it was
invoked.  We therefore parametrise each execution step by a `throws : Bool`
flag chosen by the environment, and record invocations in a ghost counter
`fireCount`.  Completion callbacks are identified by `Nat` tags; the ghost
list `completionRuns` records, in order, every completion-callback
invocation performed by `#runOnComplete`.

The host tick source (`system.runInterval` / `system.runTimeout` /
`system.clearRun`) is modelled by a `World` wrapping the task together with
the source-side registration state: for an interval task the source invokes
`#tick` on every tick while the registration is live; for a one-shot task
it counts `delay` ticks down, invokes `#executeOnce` exactly once, and
consumes the registration.  `system.clearRun` cancels a still-pending
registration and is a no-op on a consumed one.  The numeric run handle is
modelled as the Boolean `registration` (held / released), since the code
uses the handle only to test truthiness and to cancel.
-/

namespace TickScheduler

/-- The six status strings of the `TaskStatus` enum. -/
inductive TaskStatus where
  | pending
  | running
  | paused
  | completed
  | failed
  | aborted
deriving DecidableEq, Repr

/-- The string value of each `TaskStatus` member. -/
def TaskStatus.toName : TaskStatus → String
  | .pending => "pending"
  | .running => "running"
  | .paused => "paused"
  | .completed => "completed"
  | .failed => "failed"
  | .aborted => "aborted"

/-- The private instance fields of a `TaskScheduler` object, plus the two
ghost observation fields `fireCount` and `completionRuns`. -/
structure Task where
  /-- `#delay`, after the `Math.max(1, delay)` coercion in the constructor. -/
  delay : Int
  /-- `#isInterval`. -/
  isInterval : Bool
  /-- `#ticksRemaining`, the interval countdown. -/
  ticksRemaining : Int
  /-- `#status`. -/
  status : TaskStatus
  /-- `#paused`. -/
  paused : Bool
  /-- `#completeCallbacks`, callbacks identified by `Nat` tags. -/
  completeCallbacks : List Nat
  /-- `#id`: whether the tick-source run handle is still held. -/
  registration : Bool
  /-- Ghost: number of times `#callback` was invoked (throwing or not). -/
  fireCount : Nat
  /-- Ghost: completion-callback invocations, in execution order. -/
  completionRuns : List Nat
deriving DecidableEq, Repr

namespace Task

/-- `constructor(callback, delay, isInterval)`: coerces the delay up to 1,
initialises the countdown, and moves straight to `Running` (the `Pending`
field initialiser is overwritten before the constructor returns). -/
def new (delay : Int) (isInterval : Bool) : Task :=
  { delay := max 1 delay
    isInterval := isInterval
    ticksRemaining := max 1 delay
    status := .running
    paused := false
    completeCallbacks := []
    registration := true
    fireCount := 0
    completionRuns := [] }

/-- `abort()`: `system.clearRun` on a held handle, then set status to
`Aborted` unless it is already `Completed` or `Failed`.  Never throws. -/
def abort (t : Task) : Task :=
  let t := if t.registration then { t with registration := false } else t
  if t.status = .completed ∨ t.status = .failed then t
  else { t with status := .aborted }

/-- `pause()`: throws unless the status is exactly `Running`; otherwise sets
the paused gate and the `Paused` status.  The JS method returns `this`;
here the updated task is the `ok` payload, and an `error` result models a
thrown `Error` (the original object is untouched on that path). -/
def pause (t : Task) : Except String Task :=
  if t.status = .paused then
    .error "Task is already paused."
  else if t.status ≠ .running then
    .error ("Cannot pause task in status: " ++ t.status.toName)
  else
    .ok { t with paused := true, status := .paused }

/-- `start()`: throws unless the status is exactly `Paused`; otherwise
clears the paused gate and restores the `Running` status. -/
def start (t : Task) : Except String Task :=
  if t.status = .running then
    .error "Task is already running."
  else if t.status ≠ .paused then
    .error ("Cannot start task in status: " ++ t.status.toName)
  else
    .ok { t with paused := false, status := .running }

/-- `onComplete(callback)`: appends the callback and returns the task for
chaining. -/
def onComplete (cb : Nat) (t : Task) : Task :=
  { t with completeCallbacks := t.completeCallbacks ++ [cb] }

/-- `#runOnComplete()`: when the status is `Completed`, invokes every
registered completion callback in order (each invocation is recorded in
`completionRuns`; a throwing completion callback is caught and logged, so
the loop always finishes) and clears the list. -/
def runOnComplete (t : Task) : Task :=
  if t.status ≠ .completed then t
  else { t with
          completionRuns := t.completionRuns ++ t.completeCallbacks
          completeCallbacks := [] }

/-- `#tick()`: the per-tick body of an interval task.  `throws` says
whether this invocation of the user callback throws.  When paused or not
`Running`, does nothing.  Otherwise decrements the countdown; at zero or
below it runs the callback: on success the countdown resets to `delay`, on
a thrown error the task is marked `Failed` and aborted (the error itself
is caught and logged). -/
def tick (throws : Bool) (t : Task) : Task :=
  if t.paused ∨ t.status ≠ .running then t
  else
    let t := { t with ticksRemaining := t.ticksRemaining - 1 }
    if t.ticksRemaining ≤ 0 then
      if throws then
        Task.abort { t with fireCount := t.fireCount + 1, status := .failed }
      else
        { t with fireCount := t.fireCount + 1, ticksRemaining := t.delay }
    else t

/-- `#executeOnce()`: the fire handler of a one-shot task.  When paused or
not `Running`, does nothing (the one-shot registration was already consumed
by the tick source).  Otherwise runs the callback: success sets
`Completed` and fires the completion callbacks, a thrown error is caught
and sets `Failed`; the `finally` block aborts in both cases. -/
def executeOnce (throws : Bool) (t : Task) : Task :=
  if t.paused ∨ t.status ≠ .running then t
  else if throws then
    Task.abort { t with fireCount := t.fireCount + 1, status := .failed }
  else
    Task.abort (Task.runOnComplete
      { t with fireCount := t.fireCount + 1, status := .completed })

end Task

/-- A task together with the state the tick source keeps for its
registration.  For an interval task (`system.runInterval(…, 1)`) the
source fires `#tick` every tick while `sourcePending` holds.  For a
one-shot task (`system.runTimeout(…, delay)`) the source counts
`sourceCountdown` down and fires `#executeOnce` exactly once, after which
the registration is consumed (`sourcePending := false`) even though the
task may still hold the stale handle. -/
structure World where
  task : Task
  sourceCountdown : Int
  sourcePending : Bool
deriving DecidableEq, Repr

namespace World

/-- `TaskScheduler.runInterval(callback, delay)`: the constructor registers
an every-tick callback with the source. -/
def runIntervalW (delay : Int) : World :=
  { task := Task.new delay true, sourceCountdown := 0, sourcePending := true }

/-- `TaskScheduler.runTimeout(callback, delay)`: the constructor registers
a one-shot callback due after the coerced delay. -/
def runTimeoutW (delay : Int) : World :=
  { task := Task.new delay false
    sourceCountdown := (Task.new delay false).delay
    sourcePending := true }

/-- One tick of the host: the source delivers the due callback, if any.
For an interval task this runs `#tick` (which may call `system.clearRun`
from inside, reflected into `sourcePending`); for a one-shot task it
decrements the source-side countdown and, when due, consumes the
registration and runs `#executeOnce`. -/
def tickStep (throws : Bool) (w : World) : World :=
  if w.sourcePending then
    if w.task.isInterval then
      let t := Task.tick throws w.task
      { w with task := t, sourcePending := t.registration }
    else if w.sourceCountdown ≤ 1 then
      { task := Task.executeOnce throws w.task
        sourceCountdown := 0
        sourcePending := false }
    else
      { w with sourceCountdown := w.sourceCountdown - 1 }
  else w

/-- Deliver a sequence of ticks; the list entry says whether the user
callback throws on that tick, should it run. -/
def run (throwsList : List Bool) (w : World) : World :=
  throwsList.foldl (fun w b => tickStep b w) w

/-- Deliver `n` ticks on which the user callback does not throw. -/
def runN (n : Nat) (w : World) : World :=
  Nat.rec w (fun _ w => tickStep false w) n

/-- `pause()` at the world level: the source state is untouched. -/
def pauseW (w : World) : Except String World :=
  (Task.pause w.task).map fun t => { w with task := t }

/-- `start()` at the world level: the source state is untouched. -/
def startW (w : World) : Except String World :=
  (Task.start w.task).map fun t => { w with task := t }

/-- `abort()` at the world level: `system.clearRun` cancels the source
registration when the task still holds the handle (cancelling an
already-consumed one-shot handle is a no-op). -/
def abortW (w : World) : World :=
  { task := Task.abort w.task
    sourceCountdown := w.sourceCountdown
    sourcePending := if w.task.registration then false else w.sourcePending }

/-- `onComplete(callback)` at the world level. -/
def onCompleteW (cb : Nat) (w : World) : World :=
  { w with task := Task.onComplete cb w.task }

end World

/-- Whether an operation that may throw returned normally. -/
def okE (e : Except String Task) : Bool :=
  match e with
  | .ok _ => true
  | .error _ => false

/-- Extract the world of a successful operation, with a fallback for the
(unreached) throwing case; used only to write concrete scenario traces. -/
def okD (dflt : World) (e : Except String World) : World :=
  match e with
  | .ok w => w
  | .error _ => dflt

/-- The three terminal statuses. -/
def TaskStatus.terminal (s : TaskStatus) : Bool :=
  s = .completed ∨ s = .failed ∨ s = .aborted

/-- The worlds reachable from a factory call by any sequence of delivered
ticks and public control operations (`pause`/`start` count only when they
return normally: on a throw the object is untouched, so the state is the
same reachable state). -/
inductive Reachable : World → Prop where
  | interval (d : Int) : Reachable (World.runIntervalW d)
  | timeout (d : Int) : Reachable (World.runTimeoutW d)
  | tick (b : Bool) {w : World} : Reachable w → Reachable (World.tickStep b w)
  | pauseOk {w w' : World} : Reachable w → World.pauseW w = .ok w' → Reachable w'
  | startOk {w w' : World} : Reachable w → World.startW w = .ok w' → Reachable w'
  | abort {w : World} : Reachable w → Reachable (World.abortW w)
  | onComplete (cb : Nat) {w : World} :
      Reachable w → Reachable (World.onCompleteW cb w)


/-- The round-trip scenario's interval task: `runInterval(cb, 5)`. -/
def intervalDemo : World := World.runIntervalW 5

/-- The scenario world after 20 ticks and a successful `pause()`. -/
def intervalDemoPaused : World :=
  okD intervalDemo (World.pauseW (World.runN 20 intervalDemo))

/-- The scenario world after 10 further ticks and a successful `start()`. -/
def intervalDemoResumed : World :=
  okD intervalDemo (World.startW (World.runN 10 intervalDemoPaused))

/-- A one-shot task with `delayTicks = 1` that was paused before its
registration fired. -/
def pausedTimeoutDemo : World :=
  okD (World.runTimeoutW 1) (World.pauseW (World.runTimeoutW 1))

/-- The state invariant carried over all reachable worlds: a terminal task
has released its run handle and has nothing pending at the tick source,
and a released handle means nothing is pending at the source. -/
def Inv (w : World) : Prop :=
  (w.task.status.terminal = true →
      w.task.registration = false ∧ w.sourcePending = false)
  ∧ (w.task.registration = false → w.sourcePending = false)
  ∧ (w.task.status = .running → w.task.paused = false)

theorem runN_zero (w : World) : World.runN 0 w = w := rfl

theorem runN_succ (n : Nat) (w : World) :
    World.runN (n + 1) w = World.tickStep false (World.runN n w) := rfl

theorem tickStep_not_pending (b : Bool) (w : World)
    (h : w.sourcePending = false) : World.tickStep b w = w := by
  simp [World.tickStep, h]

theorem run_not_pending (bs : List Bool) (w : World)
    (h : w.sourcePending = false) : World.run bs w = w := by
  induction bs with
  | nil => rfl
  | cons b bs ih =>
      show World.run bs (World.tickStep b w) = w
      rw [tickStep_not_pending b w h]
      exact ih

theorem runN_not_pending (n : Nat) (w : World)
    (h : w.sourcePending = false) : World.runN n w = w := by
  induction n with
  | zero => rfl
  | succ n ih => rw [runN_succ, ih, tickStep_not_pending _ _ h]


theorem abortW_abortW (w : World) :
    World.abortW (World.abortW w) = World.abortW w := by
  obtain ⟨⟨d, i, r, s, p, cc, reg, fc, cr⟩, sc, sp⟩ := w
  simp only [World.abortW, Task.abort]
  cases reg <;> cases s <;> simp

theorem runOnComplete_runOnComplete (u : Task) :
    Task.runOnComplete (Task.runOnComplete u) = Task.runOnComplete u := by
  obtain ⟨d, i, r, s, p, cc, reg, fc, cr⟩ := u
  simp only [Task.runOnComplete]
  by_cases h : s = TaskStatus.completed <;> simp [h]

theorem tick_terminal_reg (b : Bool) (t : Task)
    (hterm : t.status.terminal = false) :
    (Task.tick b t).status.terminal = true →
    (Task.tick b t).registration = false := by
  obtain ⟨d, i, r, s, p, cc, reg, fc, cr⟩ := t
  simp only [Task.tick, Task.abort]
  split
  · intro h; simp_all
  · split
    · cases b <;> cases reg <;> simp_all [TaskStatus.terminal]
    · intro h; simp_all

theorem executeOnce_terminal_reg (b : Bool) (t : Task)
    (hterm : t.status.terminal = false) :
    (Task.executeOnce b t).status.terminal = true →
    (Task.executeOnce b t).registration = false := by
  obtain ⟨d, i, r, s, p, cc, reg, fc, cr⟩ := t
  simp only [Task.executeOnce, Task.abort, Task.runOnComplete]
  split
  · intro h; simp_all
  · split
    · cases reg <;> simp_all [TaskStatus.terminal]
    · cases reg <;> simp_all [TaskStatus.terminal]


theorem pause_ok_eq (t t1 : Task) (h : Task.pause t = .ok t1) :
    t1 = { t with paused := true, status := .paused }
    ∧ t.status = .running := by
  simp only [Task.pause] at h
  split at h
  · exact absurd h (by simp)
  · split at h
    · exact absurd h (by simp)
    · simp only [Except.ok.injEq] at h
      refine ⟨h.symm, ?_⟩
      by_contra hc
      simp_all

theorem start_ok_eq (t t1 : Task) (h : Task.start t = .ok t1) :
    t1 = { t with paused := false, status := .running }
    ∧ t.status = .paused := by
  simp only [Task.start] at h
  split at h
  · exact absurd h (by simp)
  · split at h
    · exact absurd h (by simp)
    · simp only [Except.ok.injEq] at h
      refine ⟨h.symm, ?_⟩
      by_contra hc
      simp_all

theorem pauseW_ok_eq (w w1 : World) (h : World.pauseW w = .ok w1) :
    w1 = { w with task :=
            { w.task with paused := true, status := .paused } }
    ∧ w.task.status = .running := by
  simp only [World.pauseW] at h
  cases hp : Task.pause w.task with
  | error e => simp [hp, Except.map] at h
  | ok t1 =>
      simp only [hp, Except.map, Except.ok.injEq] at h
      obtain ⟨he, hs⟩ := pause_ok_eq w.task t1 hp
      exact ⟨by rw [← h, he], hs⟩

theorem startW_ok_eq (w w1 : World) (h : World.startW w = .ok w1) :
    w1 = { w with task :=
            { w.task with paused := false, status := .running } }
    ∧ w.task.status = .paused := by
  simp only [World.startW] at h
  cases hp : Task.start w.task with
  | error e => simp [hp, Except.map] at h
  | ok t1 =>
      simp only [hp, Except.map, Except.ok.injEq] at h
      obtain ⟨he, hs⟩ := start_ok_eq w.task t1 hp
      exact ⟨by rw [← h, he], hs⟩

theorem abort_paused (t : Task) : (Task.abort t).paused = t.paused := by
  obtain ⟨d, i, r, s, p, cc, reg, fc, cr⟩ := t
  cases reg <;> cases s <;> simp [Task.abort]

theorem abort_status_ne_running (t : Task) :
    (Task.abort t).status ≠ .running := by
  obtain ⟨d, i, r, s, p, cc, reg, fc, cr⟩ := t
  cases reg <;> cases s <;> simp [Task.abort]

theorem runOnComplete_paused (t : Task) :
    (Task.runOnComplete t).paused = t.paused := by
  simp only [Task.runOnComplete]
  split
  · rfl
  · rfl

theorem tick_preserves_paused (b : Bool) (t : Task) :
    (Task.tick b t).paused = t.paused := by
  simp only [Task.tick]
  split
  · rfl
  · split
    · split
      · rw [abort_paused]
      · rfl
    · rfl

theorem executeOnce_preserves_paused (b : Bool) (t : Task) :
    (Task.executeOnce b t).paused = t.paused := by
  simp only [Task.executeOnce]
  split
  · rfl
  · split
    · rw [abort_paused]
    · rw [abort_paused, runOnComplete_paused]

theorem tick_noop (b : Bool) (t : Task)
    (h : t.paused = true ∨ t.status ≠ .running) : Task.tick b t = t := by
  simp only [Task.tick]
  rw [if_pos]
  rcases h with h | h
  · exact Or.inl (by simp [h])
  · exact Or.inr h

theorem executeOnce_noop (b : Bool) (t : Task)
    (h : t.paused = true ∨ t.status ≠ .running) :
    Task.executeOnce b t = t := by
  simp only [Task.executeOnce]
  rw [if_pos]
  rcases h with h | h
  · exact Or.inl (by simp [h])
  · exact Or.inr h

theorem reachable_inv (w : World) (hw : Reachable w) : Inv w := by
  induction hw with
  | interval d =>
      refine ⟨?_, ?_, ?_⟩
      · intro h; simp [World.runIntervalW, Task.new, TaskStatus.terminal] at h
      · intro h; simp [World.runIntervalW, Task.new] at h
      · intro _; rfl
  | timeout d =>
      refine ⟨?_, ?_, ?_⟩
      · intro h; simp [World.runTimeoutW, Task.new, TaskStatus.terminal] at h
      · intro h; simp [World.runTimeoutW, Task.new] at h
      · intro _; rfl
  | tick b hw ih =>
      rename_i w0
      by_cases hsp : w0.sourcePending
      · have hreg : w0.task.registration = true := by
          by_contra hc
          simp only [Bool.not_eq_true] at hc
          exact absurd (ih.2.1 hc) (by simp [hsp])
        have hterm : w0.task.status.terminal = false := by
          by_contra hc
          simp only [Bool.not_eq_false] at hc
          exact absurd (ih.1 hc).2 (by simp [hsp])
        by_cases hi : w0.task.isInterval
        · refine ⟨?_, ?_, ?_⟩
          · intro h
            simp only [World.tickStep, hsp, hi, if_true] at h ⊢
            exact ⟨tick_terminal_reg b w0.task hterm h,
                   tick_terminal_reg b w0.task hterm h⟩
          · intro h
            simp only [World.tickStep, hsp, hi, if_true] at h ⊢
            exact h
          · simp only [World.tickStep, hsp, hi, if_true]
            by_cases hrun : w0.task.status = .running
            · intro _
              rw [tick_preserves_paused]
              exact ih.2.2 hrun
            · rw [tick_noop b _ (Or.inr hrun)]
              intro hst
              exact absurd hst hrun
        · by_cases hc : w0.sourceCountdown ≤ 1
          · refine ⟨?_, ?_, ?_⟩
            · intro h
              simp only [World.tickStep, hsp, hi, hc, if_true, if_false,
                if_pos, if_neg] at h ⊢
              exact ⟨executeOnce_terminal_reg b w0.task hterm h, rfl⟩
            · intro _
              simp [World.tickStep, hsp, hi, hc]
            · simp only [World.tickStep, hsp, hi, hc, if_true, if_false,
                if_pos, if_neg, Bool.false_eq_true, ite_false, ite_true]
              by_cases hrun : w0.task.status = .running
              · intro _
                rw [executeOnce_preserves_paused]
                exact ih.2.2 hrun
              · rw [executeOnce_noop b _ (Or.inr hrun)]
                intro hst
                exact absurd hst hrun
          · refine ⟨?_, ?_, ?_⟩
            · intro h
              simp only [World.tickStep, hsp, hi, hc] at h ⊢
              simp only [if_true, if_false] at h ⊢
              exact absurd h (by simp [hterm])
            · intro h
              simp only [World.tickStep, hsp, hi, hc] at h ⊢
              simp_all
            · intro h
              simp only [World.tickStep, hsp, hi, hc] at h ⊢
              exact ih.2.2 (by simp_all)
      · simp only [Bool.not_eq_true] at hsp
        rw [tickStep_not_pending b _ hsp]
        exact ih
  | pauseOk hw heq ih =>
      rename_i w0 w1
      obtain ⟨he, hs⟩ := pauseW_ok_eq w0 w1 heq
      subst he
      refine ⟨?_, ?_, ?_⟩
      · intro h; simp [TaskStatus.terminal] at h
      · intro h; exact ih.2.1 h
      · intro h; simp at h
  | startOk hw heq ih =>
      rename_i w0 w1
      obtain ⟨he, hs⟩ := startW_ok_eq w0 w1 heq
      subst he
      refine ⟨?_, ?_, ?_⟩
      · intro h; simp [TaskStatus.terminal] at h
      · intro h; exact ih.2.1 h
      · intro _; rfl
  | abort hw ih =>
      rename_i w0
      have hsp : (World.abortW w0).sourcePending = false := by
        simp only [World.abortW]
        by_cases hreg : w0.task.registration
        · simp [hreg]
        · simp only [Bool.not_eq_true] at hreg
          simp [hreg, ih.2.1 hreg]
      refine ⟨?_, ?_, ?_⟩
      · intro _
        refine ⟨?_, hsp⟩
        simp only [World.abortW, Task.abort]
        split <;> split <;> simp_all
      · intro _; exact hsp
      · intro h
        exact absurd h (abort_status_ne_running w0.task)
  | onComplete cb hw ih =>
      rename_i w0
      refine ⟨?_, ?_, ?_⟩
      · intro h
        exact ih.1 h
      · intro h
        exact ih.2.1 h
      · intro h
        exact ih.2.2 h


theorem mod_div_succ_full (d n : Nat) (hd : 1 ≤ d) (h : n % d = d - 1) :
    (n + 1) % d = 0 ∧ (n + 1) / d = n / d + 1 := by
  have h2 : d * (n / d) + n % d = n := Nat.div_add_mod n d
  have h3 : n + 1 = d * (n / d + 1) := by
    rw [Nat.mul_add, Nat.mul_one]
    rw [h] at h2
    generalize d * (n / d) = e at h2 ⊢
    omega
  constructor
  · rw [h3, Nat.mul_mod_right]
  · rw [h3, Nat.mul_div_cancel_left _ (by omega : 0 < d)]

theorem mod_div_succ_mid (d n : Nat) (hd : 1 ≤ d) (h : n % d ≠ d - 1) :
    (n + 1) % d = n % d + 1 ∧ (n + 1) / d = n / d := by
  have hlt : n % d < d := Nat.mod_lt n (by omega)
  have hd2 : 2 ≤ d := by
    by_contra hc
    have hone : d = 1 := by omega
    subst hone
    simp [Nat.mod_one] at h
  have hm : (n + 1) % d = n % d + 1 := by
    rw [Nat.add_mod, Nat.mod_eq_of_lt (by omega : 1 < d),
      Nat.mod_eq_of_lt (by omega : n % d + 1 < d)]
  refine ⟨hm, ?_⟩
  rw [Nat.succ_div]
  have hnd : ¬ d ∣ (n + 1) := by
    intro hdvd
    obtain ⟨k, hk⟩ := hdvd
    have : (n + 1) % d = 0 := by rw [hk, Nat.mul_mod_right]
    omega
  simp [hnd]

theorem interval_step (w : World) (hsp : w.sourcePending = true)
    (hi : w.task.isInterval = true) (hs : w.task.status = .running)
    (hp : w.task.paused = false) :
    World.tickStep false w =
      if w.task.ticksRemaining - 1 ≤ 0 then
        { w with
            task := { w.task with
                        ticksRemaining := w.task.delay
                        fireCount := w.task.fireCount + 1 }
            sourcePending := w.task.registration }
      else
        { w with
            task := { w.task with
                        ticksRemaining := w.task.ticksRemaining - 1 }
            sourcePending := w.task.registration } := by
  obtain ⟨⟨d, i, r, s, p, cc, reg, fc, cr⟩, sc, sp⟩ := w
  simp only at hsp hi hs hp
  subst hsp hi hs hp
  simp only [World.tickStep, Task.tick]
  by_cases hfire : r - 1 ≤ 0 <;> simp [hfire]

theorem interval_run_fields (d : Nat) (hd : 1 ≤ d) (n : Nat) :
    (World.runN n (World.runIntervalW d)).task.status = .running
    ∧ (World.runN n (World.runIntervalW d)).task.paused = false
    ∧ (World.runN n (World.runIntervalW d)).task.registration = true
    ∧ (World.runN n (World.runIntervalW d)).sourcePending = true
    ∧ (World.runN n (World.runIntervalW d)).task.isInterval = true
    ∧ (World.runN n (World.runIntervalW d)).task.delay = (d : Int)
    ∧ (World.runN n (World.runIntervalW d)).task.ticksRemaining
        = (d : Int) - ((n % d : Nat) : Int)
    ∧ (World.runN n (World.runIntervalW d)).task.fireCount = n / d := by
  induction n with
  | zero =>
      have hmax : max 1 ((d : Nat) : Int) = (d : Int) :=
        max_eq_right (by exact_mod_cast hd)
      simp [runN_zero, World.runIntervalW, Task.new, hmax, Nat.zero_div]
  | succ n ih =>
      obtain ⟨h1, h2, h3, h4, h5, h6, h7, h8⟩ := ih
      rw [runN_succ, interval_step _ h4 h5 h1 h2]
      have hlt : n % d < d := Nat.mod_lt n (by omega)
      by_cases hA : n % d = d - 1
      · obtain ⟨hm, hdv⟩ := mod_div_succ_full d n hd hA
        have hfire :
            (World.runN n (World.runIntervalW d)).task.ticksRemaining - 1
              ≤ 0 := by
          rw [h7, hA]
          omega
        rw [if_pos hfire]
        exact ⟨h1, h2, h3, h3, h5, h6,
          by rw [h6, hm]; simp,
          by rw [h8, hdv]⟩
      · obtain ⟨hm, hdv⟩ := mod_div_succ_mid d n hd hA
        have hfire :
            ¬ ((World.runN n (World.runIntervalW d)).task.ticksRemaining - 1
              ≤ 0) := by
          rw [h7]
          omega
        rw [if_neg hfire]
        exact ⟨h1, h2, h3, h3, h5, h6,
          by rw [h7, hm]; push_cast; ring,
          by rw [h8, hdv]⟩


theorem new_delay_eq (d : Nat) (hd : 1 ≤ d) (b : Bool) :
    (Task.new (d : Int) b).delay = (d : Int) := by
  simp only [Task.new]
  exact max_eq_right (by exact_mod_cast hd)

theorem new_isInterval (d : Int) (b : Bool) :
    (Task.new d b).isInterval = b := rfl

theorem new_status (d : Int) (b : Bool) :
    (Task.new d b).status = .running := rfl

theorem new_paused (d : Int) (b : Bool) :
    (Task.new d b).paused = false := rfl

theorem timeout_run_lt (d : Nat) (hd : 1 ≤ d) (n : Nat) (hn : n < d) :
    World.runN n (World.runTimeoutW d)
      = { World.runTimeoutW d with
            sourceCountdown := (d : Int) - (n : Int) } := by
  induction n with
  | zero =>
      rw [runN_zero]
      simp [World.runTimeoutW, World.mk.injEq, new_delay_eq d hd]
  | succ n ih =>
      rw [runN_succ, ih (by omega)]
      have hc : ¬ ((d : Int) - (n : Int) ≤ 1) := by omega
      simp [World.tickStep, World.runTimeoutW, new_isInterval, hc,
        World.mk.injEq]
      ring

theorem executeOnce_new (d : Int) :
    Task.executeOnce false (Task.new d false)
      = { Task.new d false with
            status := .completed, fireCount := 1, registration := false } := by
  simp [Task.executeOnce, Task.new, Task.runOnComplete, Task.abort]

theorem timeout_run_fires (d : Nat) (hd : 1 ≤ d) :
    World.runN d (World.runTimeoutW d)
      = { task := { Task.new (d : Int) false with
                      status := .completed, fireCount := 1,
                      registration := false }
          sourceCountdown := 0
          sourcePending := false } := by
  obtain ⟨d0, rfl⟩ : ∃ d0, d = d0 + 1 := ⟨d - 1, by omega⟩
  rw [runN_succ, timeout_run_lt _ hd d0 (by omega)]
  have hc : ((d0 + 1 : Nat) : Int) - (d0 : Int) ≤ 1 := by push_cast; omega
  simp only [World.tickStep, World.runTimeoutW, new_isInterval, hc,
    if_true, if_false, Bool.false_eq_true, ite_false, ite_true]
  rw [executeOnce_new]
  rfl

theorem tick_paused (b : Bool) (t : Task) (hp : t.paused = true) :
    Task.tick b t = t := by
  simp [Task.tick, hp]

theorem tick_fire_at (t : Task) (hs : t.status = .running)
    (hp : t.paused = false) (hr : t.ticksRemaining = 1) :
    Task.tick false t
      = { t with ticksRemaining := t.delay, fireCount := t.fireCount + 1 } := by
  simp [Task.tick, hs, hp, hr]

theorem tick_iter_no_fire (t : Task) (hs : t.status = .running)
    (hp : t.paused = false) (r : Nat) (hr : t.ticksRemaining = (r : Int))
    (m : Nat) (hm : m < r) :
    (Task.tick false)^[m] t
      = { t with ticksRemaining := ((r - m : Nat) : Int) } := by
  induction m with
  | zero =>
      simp only [Function.iterate_zero, id_eq, Nat.sub_zero, ← hr]
  | succ m ihm =>
      rw [Function.iterate_succ_apply', ihm (by omega)]
      have hcond : ¬ (((r - m : Nat) : Int) - 1 ≤ 0) := by omega
      simp [Task.tick, hs, hp, hcond]
      omega

theorem tick_iter_fires (t : Task) (hs : t.status = .running)
    (hp : t.paused = false) (r : Nat) (hr : t.ticksRemaining = (r : Int))
    (h1 : 1 ≤ r) :
    ((Task.tick false)^[r] t).fireCount = t.fireCount + 1 := by
  obtain ⟨r0, rfl⟩ : ∃ r0, r = r0 + 1 := ⟨r - 1, by omega⟩
  have htr : ({ t with
      ticksRemaining := ((r0 + 1 - r0 : Nat) : Int) } : Task).ticksRemaining
        = 1 := by
    show ((r0 + 1 - r0 : Nat) : Int) = 1
    omega
  rw [Function.iterate_succ_apply',
    tick_iter_no_fire t hs hp (r0 + 1) hr r0 (by omega),
    tick_fire_at ({ t with
      ticksRemaining := ((r0 + 1 - r0 : Nat) : Int) }) hs hp htr]


theorem abort_fields (t : Task) :
    (Task.abort t).registration = false
    ∧ (Task.abort t).completionRuns = t.completionRuns
    ∧ (Task.abort t).completeCallbacks = t.completeCallbacks
    ∧ (Task.abort t).fireCount = t.fireCount
    ∧ (t.status = .completed → (Task.abort t).status = .completed)
    ∧ (t.status = .failed → (Task.abort t).status = .failed)
    ∧ ((t.status ≠ .completed ∧ t.status ≠ .failed) →
        (Task.abort t).status = .aborted) := by
  obtain ⟨d, i, r, s, p, cc, reg, fc, cr⟩ := t
  cases reg <;> cases s <;> simp [Task.abort]

theorem abortW_iterate (w : World) (n : Nat) :
    World.abortW^[n + 1] w = World.abortW w := by
  induction n with
  | zero => simp [Function.iterate_one]
  | succ n ih => rw [Function.iterate_succ_apply', ih, abortW_abortW]

/-- C1: for every interval task created with `delayTicks = d ≥ 1`, after
`n` delivered ticks the wrapped callback has fired exactly `n / d` times,
i.e. it fires on ticks `d, 2d, 3d, …` relative to creation; a tick
delivered to an interval task that is paused or not in `running` status
never fires the callback; and the concrete round-trip scenario with
`d = 5` holds: 1 firing after 5 ticks, 4 after 15 more, still 4 after
`pause()` and 10 more ticks, and 5 after `start()` and 5 more ticks. -/
theorem C1_interval_fire_schedule (d n : Nat) (hd : 1 ≤ d) :
    (World.runN n (World.runIntervalW d)).task.fireCount = n / d
    ∧ (∀ b : Bool, ∀ w : World, w.task.isInterval = true →
        w.task.paused = true ∨ w.task.status ≠ .running →
        (World.tickStep b w).task.fireCount = w.task.fireCount)
    ∧ (World.runN 5 intervalDemo).task.fireCount = 1
    ∧ (World.runN 20 intervalDemo).task.fireCount = 4
    ∧ okE (Task.pause (World.runN 20 intervalDemo).task) = true
    ∧ (World.runN 10 intervalDemoPaused).task.fireCount = 4
    ∧ okE (Task.start (World.runN 10 intervalDemoPaused).task) = true
    ∧ (World.runN 5 intervalDemoResumed).task.fireCount = 5 := by
  refine ⟨(interval_run_fields d hd n).2.2.2.2.2.2.2, ?_,
    by decide, by decide, by decide, by decide, by decide, by decide⟩
  intro b w hi hguard
  by_cases hsp : w.sourcePending
  · simp only [World.tickStep, hsp, hi, if_true]
    rw [tick_noop b w.task hguard]
  · rw [tickStep_not_pending b w (by simp_all)]

/-- C2: for every one-shot task whose status is `running` and not paused
when the tick source fires it, the wrapped callback executes exactly once;
on return without throwing the status becomes `completed`, the completion
callbacks fire in registration order and the list is cleared, and the
registration is released; afterwards the status is exactly `completed` or
`failed`; a one-shot task with `delayTicks = d ≥ 1` has not fired
before tick `d`, has fired exactly once at tick `d`, and never fires
again on any later tick; and in every reachable world a `running` task is
unpaused, so the unpaused hypothesis is implied for actual tasks. -/
theorem C2_oneshot_fire_once (t : Task) (b : Bool) (d : Nat)
    (hs : t.status = .running) (hp : t.paused = false) (hd : 1 ≤ d) :
    (Task.executeOnce b t).fireCount = t.fireCount + 1
    ∧ (Task.executeOnce false t).status = .completed
    ∧ (Task.executeOnce false t).completionRuns
        = t.completionRuns ++ t.completeCallbacks
    ∧ (Task.executeOnce false t).completeCallbacks = []
    ∧ (Task.executeOnce false t).registration = false
    ∧ ((Task.executeOnce b t).status = .completed
        ∨ (Task.executeOnce b t).status = .failed)
    ∧ (∀ n, n < d → (World.runN n (World.runTimeoutW d)).task.fireCount = 0)
    ∧ (World.runN d (World.runTimeoutW d)).task.fireCount = 1
    ∧ (∀ m, World.runN m (World.runN d (World.runTimeoutW d))
        = World.runN d (World.runTimeoutW d))
    ∧ (∀ w : World, Reachable w → w.task.status = .running →
        w.task.paused = false) := by
  obtain ⟨dl, i, r, s, p, cc, reg, fc, cr⟩ := t
  simp only at hs hp
  subst hs hp
  refine ⟨?_, ?_, ?_, ?_, ?_, ?_, ?_, ?_, ?_,
    fun w hw => (reachable_inv w hw).2.2⟩
  · cases b <;> cases reg <;>
      simp [Task.executeOnce, Task.runOnComplete, Task.abort]
  · cases reg <;> simp [Task.executeOnce, Task.runOnComplete, Task.abort]
  · cases reg <;> simp [Task.executeOnce, Task.runOnComplete, Task.abort]
  · cases reg <;> simp [Task.executeOnce, Task.runOnComplete, Task.abort]
  · cases reg <;> simp [Task.executeOnce, Task.runOnComplete, Task.abort]
  · cases b <;> cases reg <;>
      simp [Task.executeOnce, Task.runOnComplete, Task.abort]
  · intro n hn
    rw [timeout_run_lt d hd n hn]
    rfl
  · rw [timeout_run_fires d hd]
  · intro m
    refine runN_not_pending m _ ?_
    rw [timeout_run_fires d hd]

/-- C3: `pause()` returns normally if and only if the status is exactly
`running`, in which case the result is the same task with the paused gate
set and status `paused`; `start()` returns normally if and only if the
status is exactly `paused`, in which case the result is the same task
running and unpaused; both directions hold for all six statuses, and a
throwing call produces no updated task. -/
theorem C3_pause_start_guards (t : Task) :
    (okE (Task.pause t) = true ↔ t.status = .running)
    ∧ (t.status = .running →
        Task.pause t = .ok { t with paused := true, status := .paused })
    ∧ (okE (Task.start t) = true ↔ t.status = .paused)
    ∧ (t.status = .paused →
        Task.start t = .ok { t with paused := false, status := .running }) := by
  obtain ⟨d, i, r, s, p, cc, reg, fc, cr⟩ := t
  cases s <;> simp [Task.pause, Task.start, okE]

/-- C4: `abort()` never throws (it is a total operation), calling it
`n ≥ 1` times yields exactly the state of calling it once, the
registration is released by every call, a `completed` or `failed` status
is left unchanged, and any other status becomes `aborted`. -/
theorem C4_abort_idempotent (w : World) (n : Nat) (hw : Reachable w)
    (hn : 1 ≤ n) :
    World.abortW^[n] w = World.abortW w
    ∧ (World.abortW w).task.registration = false
    ∧ (World.abortW w).sourcePending = false
    ∧ (w.task.status = .completed →
        (World.abortW w).task.status = .completed)
    ∧ (w.task.status = .failed → (World.abortW w).task.status = .failed)
    ∧ ((w.task.status ≠ .completed ∧ w.task.status ≠ .failed) →
        (World.abortW w).task.status = .aborted) := by
  obtain ⟨m, rfl⟩ : ∃ m, n = m + 1 := ⟨n - 1, by omega⟩
  have hf := abort_fields w.task
  refine ⟨abortW_iterate w m, hf.1, ?_, hf.2.2.2.2.1, hf.2.2.2.2.2.1,
    hf.2.2.2.2.2.2⟩
  simp only [World.abortW]
  by_cases hreg : w.task.registration
  · simp [hreg]
  · simp only [Bool.not_eq_true] at hreg
    simp [hreg, (reachable_inv w hw).2.1 hreg]

/-- C5: whenever the wrapped callback throws during execution, the error
is contained: for an interval task in `running` unpaused state whose
countdown has reached its final tick, the throwing `#tick` leaves the task
`failed` with the registration released and no completion-callback
invocation; the same holds for a throwing `#executeOnce` of a one-shot
task; and in the concrete scenario of a one-shot task with
`delayTicks = 1` and a throwing callback (with a completion callback
registered), after the fire the status is `failed` and zero completion
callbacks have executed. -/
theorem C5_throwing_callback_fails (t : Task)
    (hs : t.status = .running) (hp : t.paused = false) :
    (t.ticksRemaining ≤ 1 →
      (Task.tick true t).status = .failed
      ∧ (Task.tick true t).registration = false
      ∧ (Task.tick true t).completionRuns = t.completionRuns)
    ∧ (Task.executeOnce true t).status = .failed
    ∧ (Task.executeOnce true t).registration = false
    ∧ (Task.executeOnce true t).completionRuns = t.completionRuns
    ∧ (World.run [true] (World.runTimeoutW 1)).task.status = .failed
    ∧ (World.run [true]
        (World.onCompleteW 7 (World.runTimeoutW 1))).task.status = .failed
    ∧ (World.run [true]
        (World.onCompleteW 7 (World.runTimeoutW 1))).task.completionRuns
        = [] := by
  obtain ⟨dl, i, r, s, p, cc, reg, fc, cr⟩ := t
  simp only at hs hp
  subst hs hp
  refine ⟨?_, ?_, ?_, ?_, by decide, by decide, by decide⟩
  · intro htr
    simp only at htr
    have htr2 : r - 1 ≤ 0 := by omega
    cases reg <;> simp [Task.tick, Task.abort, htr2]
  · cases reg <;> simp [Task.executeOnce, Task.abort]
  · cases reg <;> simp [Task.executeOnce, Task.abort]
  · cases reg <;> simp [Task.executeOnce, Task.abort]


/-- C6: in every reachable world whose task status is terminal
(`completed`, `failed` or `aborted`), the tick-source registration has
been released and nothing is pending at the source, so every further tick
sequence leaves the world entirely unchanged (in particular the callback
never executes again); moreover the completion logic clears the callback
list when it runs, and running it a second time is a no-op. -/
theorem C6_terminal_releases_source (w : World) (hw : Reachable w)
    (ht : w.task.status.terminal = true) :
    w.task.registration = false
    ∧ w.sourcePending = false
    ∧ (∀ bs, World.run bs w = w)
    ∧ (∀ u : Task, u.status = .completed →
        (Task.runOnComplete u).completeCallbacks = [])
    ∧ (∀ u : Task, Task.runOnComplete (Task.runOnComplete u)
        = Task.runOnComplete u) := by
  obtain ⟨hreg, hsp⟩ := (reachable_inv w hw).1 ht
  exact ⟨hreg, hsp, fun bs => run_not_pending bs w hsp,
    fun u hu => by simp [Task.runOnComplete, hu],
    runOnComplete_runOnComplete⟩

/-- C7: both factory entry points coerce the delay argument up to a
minimum of 1, so the stored `delayTicks` (and the initial countdown) is
always at least 1; and `runInterval(cb, 0)` constructs exactly the same
initial world as `runInterval(cb, 1)`, hence behaves identically under
every subsequent tick and control-operation sequence. -/
theorem C7_delay_coerced_to_one :
    (∀ dl : Int,
      1 ≤ (World.runIntervalW dl).task.delay
      ∧ 1 ≤ (World.runTimeoutW dl).task.delay
      ∧ 1 ≤ (World.runIntervalW dl).task.ticksRemaining
      ∧ 1 ≤ (World.runTimeoutW dl).task.ticksRemaining)
    ∧ World.runIntervalW 0 = World.runIntervalW 1 := by
  refine ⟨fun dl => ⟨?_, ?_, ?_, ?_⟩, by decide⟩
  all_goals
    simp [World.runIntervalW, World.runTimeoutW, Task.new, le_max_left]

/-- C8: a one-shot task that is `paused` when the tick source delivers its
one-shot registration is silently skipped: the task state is unchanged
(status still `paused`) while the registration is consumed; `start()`
afterwards succeeds and yields status `running`, but from then on no
further tick sequence changes the world at all — the callback never
executes and the status never becomes terminal. -/
theorem C8_paused_oneshot_stuck (w : World) (b : Bool)
    (hI : w.task.isInterval = false) (hS : w.task.status = .paused)
    (hP : w.sourcePending = true) (hC : w.sourceCountdown ≤ 1) :
    (World.tickStep b w).task = w.task
    ∧ (World.tickStep b w).task.status = .paused
    ∧ (World.tickStep b w).sourcePending = false
    ∧ okE (Task.start (World.tickStep b w).task) = true
    ∧ (∀ w2 : World, World.startW (World.tickStep b w) = .ok w2 →
        w2.task.status = .running
        ∧ w2.task.fireCount = w.task.fireCount
        ∧ (∀ bs, World.run bs w2 = w2)) := by
  have hstep : World.tickStep b w
      = { task := w.task, sourceCountdown := 0, sourcePending := false } := by
    simp only [World.tickStep, hP, hI, hC, if_true, Bool.false_eq_true,
      if_false, ite_true, ite_false]
    rw [executeOnce_noop b w.task (Or.inr (by rw [hS]; simp))]
  rw [hstep]
  refine ⟨rfl, hS, rfl, by simp [Task.start, okE, hS], ?_⟩
  intro w2 h2
  obtain ⟨he, _⟩ := startW_ok_eq _ w2 h2
  subst he
  exact ⟨rfl, rfl, fun bs => run_not_pending bs _ rfl⟩

/-- C9: a successful `pause()` or `start()` changes only the paused gate
and the status — delay, interval kind, countdown, completion-callback
list, registration and the ghost observation fields are untouched; a tick
delivered while the paused gate is set leaves the task (in particular its
countdown) unchanged; and an interval task resumed in `running` state
with `r ≥ 1` ticks remaining fires after exactly those `r` ticks, not
after a fresh full delay. -/
theorem C9_pause_start_frame (t : Task) (b : Bool) (r : Nat) :
    (∀ t1, Task.pause t = .ok t1 →
        t1.delay = t.delay ∧ t1.isInterval = t.isInterval
        ∧ t1.ticksRemaining = t.ticksRemaining
        ∧ t1.completeCallbacks = t.completeCallbacks
        ∧ t1.registration = t.registration
        ∧ t1.fireCount = t.fireCount
        ∧ t1.completionRuns = t.completionRuns
        ∧ t1.paused = true ∧ t1.status = .paused)
    ∧ (∀ t1, Task.start t = .ok t1 →
        t1.delay = t.delay ∧ t1.isInterval = t.isInterval
        ∧ t1.ticksRemaining = t.ticksRemaining
        ∧ t1.completeCallbacks = t.completeCallbacks
        ∧ t1.registration = t.registration
        ∧ t1.fireCount = t.fireCount
        ∧ t1.completionRuns = t.completionRuns
        ∧ t1.paused = false ∧ t1.status = .running)
    ∧ (∀ w w2 : World, World.pauseW w = .ok w2 →
        w2.sourceCountdown = w.sourceCountdown
        ∧ w2.sourcePending = w.sourcePending)
    ∧ (∀ w w2 : World, World.startW w = .ok w2 →
        w2.sourceCountdown = w.sourceCountdown
        ∧ w2.sourcePending = w.sourcePending)
    ∧ (t.paused = true → Task.tick b t = t)
    ∧ (t.status = .running → t.paused = false →
        t.ticksRemaining = (r : Int) → 1 ≤ r →
        ((Task.tick false)^[r] t).fireCount = t.fireCount + 1
        ∧ (∀ m, m < r →
            ((Task.tick false)^[m] t).fireCount = t.fireCount)) := by
  refine ⟨?_, ?_, ?_, ?_, tick_paused b t, ?_⟩
  · intro t1 h
    obtain ⟨he, _⟩ := pause_ok_eq t t1 h
    subst he
    exact ⟨rfl, rfl, rfl, rfl, rfl, rfl, rfl, rfl, rfl⟩
  · intro t1 h
    obtain ⟨he, _⟩ := start_ok_eq t t1 h
    subst he
    exact ⟨rfl, rfl, rfl, rfl, rfl, rfl, rfl, rfl, rfl⟩
  · intro w w2 h
    obtain ⟨he, _⟩ := pauseW_ok_eq w w2 h
    subst he
    exact ⟨rfl, rfl⟩
  · intro w w2 h
    obtain ⟨he, _⟩ := startW_ok_eq w w2 h
    subst he
    exact ⟨rfl, rfl⟩
  · intro hs hp hr h1
    refine ⟨tick_iter_fires t hs hp r hr h1, fun m hm => ?_⟩
    rw [tick_iter_no_fire t hs hp r hr m hm]

/-- C10: calling `onComplete(cb)` on a task that is already `completed`
still appends `cb` to the list and returns the updated task for chaining,
but the recorded completion-callback invocations never change afterwards:
every further tick sequence leaves the world unchanged, and `abort()`
preserves the invocation record, so the newly appended callback is never
invoked. -/
theorem C10_onComplete_after_completed (w : World) (hw : Reachable w)
    (hc : w.task.status = .completed) (cb : Nat) :
    (World.onCompleteW cb w).task = Task.onComplete cb w.task
    ∧ (World.onCompleteW cb w).task.completeCallbacks
        = w.task.completeCallbacks ++ [cb]
    ∧ (∀ bs, World.run bs (World.onCompleteW cb w)
        = World.onCompleteW cb w)
    ∧ (∀ bs, (World.run bs (World.onCompleteW cb w)).task.completionRuns
        = w.task.completionRuns)
    ∧ (World.abortW (World.onCompleteW cb w)).task.completionRuns
        = w.task.completionRuns := by
  have hsp : w.sourcePending = false :=
    ((reachable_inv w hw).1 (by simp [TaskStatus.terminal, hc])).2
  have hsp2 : (World.onCompleteW cb w).sourcePending = false := hsp
  refine ⟨rfl, rfl, fun bs => run_not_pending bs _ hsp2,
    fun bs => by rw [run_not_pending bs _ hsp2]; rfl, ?_⟩
  exact (abort_fields (Task.onComplete cb w.task)).2.1


theorem C1_interval_fire_schedule_witness :
    1 ≤ 5
    ∧ ((World.runN 7 (World.runIntervalW 5)).task.fireCount = 7 / 5
      ∧ (∀ b : Bool, ∀ w : World, w.task.isInterval = true →
          w.task.paused = true ∨ w.task.status ≠ .running →
          (World.tickStep b w).task.fireCount = w.task.fireCount)
      ∧ (World.runN 5 intervalDemo).task.fireCount = 1
      ∧ (World.runN 20 intervalDemo).task.fireCount = 4
      ∧ okE (Task.pause (World.runN 20 intervalDemo).task) = true
      ∧ (World.runN 10 intervalDemoPaused).task.fireCount = 4
      ∧ okE (Task.start (World.runN 10 intervalDemoPaused).task) = true
      ∧ (World.runN 5 intervalDemoResumed).task.fireCount = 5) :=
  ⟨by decide, C1_interval_fire_schedule 5 7 (by decide)⟩

theorem C2_oneshot_fire_once_witness :
    (Task.new 2 false).status = .running
    ∧ (Task.new 2 false).paused = false
    ∧ 1 ≤ 2
    ∧ ((Task.executeOnce false (Task.new 2 false)).fireCount
          = (Task.new 2 false).fireCount + 1
      ∧ (Task.executeOnce false (Task.new 2 false)).status = .completed
      ∧ (Task.executeOnce false (Task.new 2 false)).completionRuns
          = (Task.new 2 false).completionRuns
            ++ (Task.new 2 false).completeCallbacks
      ∧ (Task.executeOnce false (Task.new 2 false)).completeCallbacks = []
      ∧ (Task.executeOnce false (Task.new 2 false)).registration = false
      ∧ ((Task.executeOnce false (Task.new 2 false)).status = .completed
          ∨ (Task.executeOnce false (Task.new 2 false)).status = .failed)
      ∧ (∀ n, n < 2 →
          (World.runN n (World.runTimeoutW 2)).task.fireCount = 0)
      ∧ (World.runN 2 (World.runTimeoutW 2)).task.fireCount = 1
      ∧ (∀ m, World.runN m (World.runN 2 (World.runTimeoutW 2))
          = World.runN 2 (World.runTimeoutW 2))
      ∧ (∀ w : World, Reachable w → w.task.status = .running →
          w.task.paused = false)) :=
  ⟨by decide, by decide, by decide,
    C2_oneshot_fire_once (Task.new 2 false) false 2 rfl rfl (by decide)⟩

theorem C3_pause_start_guards_witness :
    (okE (Task.pause (Task.new 3 true)) = true
        ↔ (Task.new 3 true).status = .running)
    ∧ ((Task.new 3 true).status = .running →
        Task.pause (Task.new 3 true)
          = .ok { Task.new 3 true with paused := true, status := .paused })
    ∧ (okE (Task.start (Task.new 3 true)) = true
        ↔ (Task.new 3 true).status = .paused)
    ∧ ((Task.new 3 true).status = .paused →
        Task.start (Task.new 3 true)
          = .ok { Task.new 3 true with
                    paused := false, status := .running }) :=
  C3_pause_start_guards (Task.new 3 true)

theorem C4_abort_idempotent_witness :
    Reachable (World.runIntervalW 2)
    ∧ 1 ≤ 3
    ∧ (World.abortW^[3] (World.runIntervalW 2)
          = World.abortW (World.runIntervalW 2)
      ∧ (World.abortW (World.runIntervalW 2)).task.registration = false
      ∧ (World.abortW (World.runIntervalW 2)).sourcePending = false
      ∧ ((World.runIntervalW 2).task.status = .completed →
          (World.abortW (World.runIntervalW 2)).task.status = .completed)
      ∧ ((World.runIntervalW 2).task.status = .failed →
          (World.abortW (World.runIntervalW 2)).task.status = .failed)
      ∧ (((World.runIntervalW 2).task.status ≠ .completed
            ∧ (World.runIntervalW 2).task.status ≠ .failed) →
          (World.abortW (World.runIntervalW 2)).task.status = .aborted)) :=
  ⟨Reachable.interval 2, by decide,
    C4_abort_idempotent (World.runIntervalW 2) 3
      (Reachable.interval 2) (by decide)⟩

theorem C5_throwing_callback_fails_witness :
    (Task.new 1 true).status = .running
    ∧ (Task.new 1 true).paused = false
    ∧ (((Task.new 1 true).ticksRemaining ≤ 1 →
          (Task.tick true (Task.new 1 true)).status = .failed
          ∧ (Task.tick true (Task.new 1 true)).registration = false
          ∧ (Task.tick true (Task.new 1 true)).completionRuns
              = (Task.new 1 true).completionRuns)
      ∧ (Task.executeOnce true (Task.new 1 true)).status = .failed
      ∧ (Task.executeOnce true (Task.new 1 true)).registration = false
      ∧ (Task.executeOnce true (Task.new 1 true)).completionRuns
          = (Task.new 1 true).completionRuns
      ∧ (World.run [true] (World.runTimeoutW 1)).task.status = .failed
      ∧ (World.run [true]
          (World.onCompleteW 7 (World.runTimeoutW 1))).task.status = .failed
      ∧ (World.run [true]
          (World.onCompleteW 7 (World.runTimeoutW 1))).task.completionRuns
          = []) :=
  ⟨rfl, rfl, C5_throwing_callback_fails (Task.new 1 true) rfl rfl⟩

theorem C6_terminal_releases_source_witness :
    Reachable (World.abortW (World.runIntervalW 1))
    ∧ (World.abortW (World.runIntervalW 1)).task.status.terminal = true
    ∧ ((World.abortW (World.runIntervalW 1)).task.registration = false
      ∧ (World.abortW (World.runIntervalW 1)).sourcePending = false
      ∧ (∀ bs, World.run bs (World.abortW (World.runIntervalW 1))
          = World.abortW (World.runIntervalW 1))
      ∧ (∀ u : Task, u.status = .completed →
          (Task.runOnComplete u).completeCallbacks = [])
      ∧ (∀ u : Task, Task.runOnComplete (Task.runOnComplete u)
          = Task.runOnComplete u)) :=
  ⟨Reachable.abort (Reachable.interval 1), by decide,
    C6_terminal_releases_source (World.abortW (World.runIntervalW 1))
      (Reachable.abort (Reachable.interval 1)) (by decide)⟩

theorem C8_paused_oneshot_stuck_witness :
    pausedTimeoutDemo.task.isInterval = false
    ∧ pausedTimeoutDemo.task.status = .paused
    ∧ pausedTimeoutDemo.sourcePending = true
    ∧ pausedTimeoutDemo.sourceCountdown ≤ 1
    ∧ ((World.tickStep false pausedTimeoutDemo).task
          = pausedTimeoutDemo.task
      ∧ (World.tickStep false pausedTimeoutDemo).task.status = .paused
      ∧ (World.tickStep false pausedTimeoutDemo).sourcePending = false
      ∧ okE (Task.start (World.tickStep false pausedTimeoutDemo).task)
          = true
      ∧ (∀ w2 : World,
          World.startW (World.tickStep false pausedTimeoutDemo) = .ok w2 →
          w2.task.status = .running
          ∧ w2.task.fireCount = pausedTimeoutDemo.task.fireCount
          ∧ (∀ bs, World.run bs w2 = w2))) :=
  ⟨by decide, by decide, by decide, by decide,
    C8_paused_oneshot_stuck pausedTimeoutDemo false
      (by decide) (by decide) (by decide) (by decide)⟩

theorem C9_pause_start_frame_witness :
    (∀ t1, Task.pause (Task.new 5 true) = .ok t1 →
        t1.delay = (Task.new 5 true).delay
        ∧ t1.isInterval = (Task.new 5 true).isInterval
        ∧ t1.ticksRemaining = (Task.new 5 true).ticksRemaining
        ∧ t1.completeCallbacks = (Task.new 5 true).completeCallbacks
        ∧ t1.registration = (Task.new 5 true).registration
        ∧ t1.fireCount = (Task.new 5 true).fireCount
        ∧ t1.completionRuns = (Task.new 5 true).completionRuns
        ∧ t1.paused = true ∧ t1.status = .paused)
    ∧ (∀ t1, Task.start (Task.new 5 true) = .ok t1 →
        t1.delay = (Task.new 5 true).delay
        ∧ t1.isInterval = (Task.new 5 true).isInterval
        ∧ t1.ticksRemaining = (Task.new 5 true).ticksRemaining
        ∧ t1.completeCallbacks = (Task.new 5 true).completeCallbacks
        ∧ t1.registration = (Task.new 5 true).registration
        ∧ t1.fireCount = (Task.new 5 true).fireCount
        ∧ t1.completionRuns = (Task.new 5 true).completionRuns
        ∧ t1.paused = false ∧ t1.status = .running)
    ∧ (∀ w w2 : World, World.pauseW w = .ok w2 →
        w2.sourceCountdown = w.sourceCountdown
        ∧ w2.sourcePending = w.sourcePending)
    ∧ (∀ w w2 : World, World.startW w = .ok w2 →
        w2.sourceCountdown = w.sourceCountdown
        ∧ w2.sourcePending = w.sourcePending)
    ∧ ((Task.new 5 true).paused = true →
        Task.tick false (Task.new 5 true) = Task.new 5 true)
    ∧ ((Task.new 5 true).status = .running →
        (Task.new 5 true).paused = false →
        (Task.new 5 true).ticksRemaining = ((5 : Nat) : Int) → 1 ≤ 5 →
        ((Task.tick false)^[5] (Task.new 5 true)).fireCount
            = (Task.new 5 true).fireCount + 1
        ∧ (∀ m, m < 5 →
            ((Task.tick false)^[m] (Task.new 5 true)).fireCount
              = (Task.new 5 true).fireCount)) :=
  C9_pause_start_frame (Task.new 5 true) false 5

theorem C10_onComplete_after_completed_witness :
    Reachable (World.runN 1 (World.runTimeoutW 1))
    ∧ (World.runN 1 (World.runTimeoutW 1)).task.status = .completed
    ∧ ((World.onCompleteW 3 (World.runN 1 (World.runTimeoutW 1))).task
          = Task.onComplete 3 (World.runN 1 (World.runTimeoutW 1)).task
      ∧ (World.onCompleteW 3
            (World.runN 1 (World.runTimeoutW 1))).task.completeCallbacks
          = (World.runN 1 (World.runTimeoutW 1)).task.completeCallbacks
            ++ [3]
      ∧ (∀ bs, World.run bs
            (World.onCompleteW 3 (World.runN 1 (World.runTimeoutW 1)))
          = World.onCompleteW 3 (World.runN 1 (World.runTimeoutW 1)))
      ∧ (∀ bs, (World.run bs
            (World.onCompleteW 3
              (World.runN 1 (World.runTimeoutW 1)))).task.completionRuns
          = (World.runN 1 (World.runTimeoutW 1)).task.completionRuns)
      ∧ (World.abortW (World.onCompleteW 3
            (World.runN 1 (World.runTimeoutW 1)))).task.completionRuns
          = (World.runN 1 (World.runTimeoutW 1)).task.completionRuns) :=
  ⟨Reachable.tick false (Reachable.timeout 1), by decide,
    C10_onComplete_after_completed (World.runN 1 (World.runTimeoutW 1))
      (Reachable.tick false (Reachable.timeout 1)) (by decide) 3⟩

end TickScheduler
